import Mathlib

/-!
Verification of `react-native-axios-jwt` (`src/index.ts`) against its
natural-language specification.

The embedding models:
* the persisted token record (`StoredPair` / `Storage`), a JSON object whose
  fields may be absent (JSON.stringify drops `undefined` fields);
* JS error values carrying an optional `error.response.status` (`JsError`);
* the jwt-decode collaborator as part of an environment (`Env.jwtDecode`),
  since `jwt-decode` is an external dependency: it either throws
  (`Except.error`) or yields a payload whose numeric `exp` claim may be absent;
* the caller-supplied refresh callback (`Env.requestRefresh`) returning a JS
  value of one of the runtime shapes the source discriminates on
  (`RefreshResult`);
* every exported/private function of the source as an explicit state-passing
  function over `Storage`, also returning the number of times the refresh
  callback was invoked where that matters;
* the interceptor concurrency (module-level `isRefreshing` flag and waiter
  `queue`) as a small-step transition system over `Sys`, one atomic step per
  synchronous JS segment (single-threaded cooperative scheduling: code between
  two `await`s runs without interleaving).

Time is measured in integral seconds (`Int`); `Date.now() / 1000` is the
environment field `now`.
-/

deriving instance DecidableEq for Except

/-- JWT access / refresh tokens are opaque strings. -/
abbrev Token := String

/-- The persisted record under `STORAGE_KEY`: a JSON object with fields
`accessToken` and `refreshToken`, either of which may be absent (an absent
field is what `JSON.stringify` produces for an `undefined` property, and what
reading a missing property yields). -/
structure StoredPair where
  accessToken : Option Token
  refreshToken : Option Token
deriving DecidableEq

/-- The AsyncStorage cell under `STORAGE_KEY`: absent, or a stored record.
Only well-formed records are representable because `setAuthTokens` (the sole
writer) always writes `JSON.stringify` of an object; storage-layer failures
and externally corrupted records are outside the claims considered here. -/
abbrev Storage := Option StoredPair

/-- A JS error value as the source inspects it: `error?.response?.status`
(absent unless the thrower attached an HTTP response) and `error.message`. -/
structure JsError where
  status : Option Nat
  msg : String
deriving DecidableEq

/-- An `Error` constructed from a bare message (`new Error(msg)`): it carries
no `response.status`. -/
def JsError.plain (m : String) : JsError := ⟨none, m⟩

/-- JS `String(error)` for an `Error` object: `"Error: " + message`
(just `"Error"` when the message is empty). Used by `new Error(error)`. -/
def errToString (e : JsError) : String :=
  if e.msg = "" then "Error" else "Error: " ++ e.msg

/-- The decoded JWT payload, restricted to the only claim the source reads:
`decoded.exp`, a numeric claim that may be absent. -/
structure JwtPayload where
  exp : Option Int
deriving DecidableEq

/-- Runtime shapes a refresh callback result can take, as discriminated by the
source (`typeof newTokens === 'object' && newTokens?.accessToken`, then
`typeof newTokens === 'string'`): a string, an object with optional
`accessToken` / `refreshToken` properties, `null` (whose `typeof` is
`'object'`), or any non-object non-string value. -/
inductive RefreshResult where
  | str (s : String)
  | obj (accessToken : Option Token) (refreshToken : Option Token)
  | nullv
  | other
deriving DecidableEq

/-- The ambient collaborators of the module: the current time
(`Date.now() / 1000`, in seconds), the `jwt-decode` library (which throws on
malformed tokens), and the caller-supplied `requestRefresh` callback (which
may reject with a JS error). -/
structure Env where
  now : Int
  jwtDecode : Token → Except JsError JwtPayload
  requestRefresh : Token → Except JsError RefreshResult

/-- JS truthiness of a `string | undefined` value: `undefined` and the empty
string are falsy. -/
def jsTruthyOptStr : Option String → Bool
  | none => false
  | some s => decide (s ≠ "")

/-- `getAuthTokens`: reads and parses the stored record. In the model the
record is already structured, so parsing always succeeds (see `Storage`). -/
def getAuthTokens (s : Storage) : Option StoredPair := s

/-- `getRefreshToken`: `tokens ? tokens.refreshToken : undefined`. -/
def getRefreshToken (s : Storage) : Option Token :=
  (getAuthTokens s).bind (fun tokens => tokens.refreshToken)

/-- `getAccessToken`: `tokens ? tokens.accessToken : undefined`. -/
def getAccessToken (s : Storage) : Option Token :=
  (getAuthTokens s).bind (fun tokens => tokens.accessToken)

/-- `isLoggedIn`: `!!token` on the stored refresh token. -/
def isLoggedIn (s : Storage) : Bool :=
  jsTruthyOptStr (getRefreshToken s)

/-- `setAuthTokens`: overwrites the storage cell with the serialized record. -/
def setAuthTokens (tokens : StoredPair) (_s : Storage) : Storage :=
  some tokens

/-- `clearAuthTokens`: `AsyncStorage.removeItem(STORAGE_KEY)`. -/
def clearAuthTokens (_s : Storage) : Storage :=
  none

/-- `setAccessToken`: reads the stored record, throws
`'Unable to update access token since there are not tokens currently stored'`
when none is stored, otherwise mutates its `accessToken` field and writes it
back (the `refreshToken` field, present or absent, is carried unchanged). -/
def setAccessToken (token : Token) (s : Storage) : Storage × Except JsError Unit :=
  match getAuthTokens s with
  | none =>
      (s, .error (JsError.plain
        "Unable to update access token since there are not tokens currently stored"))
  | some tokens =>
      (setAuthTokens { tokens with accessToken := some token } s, .ok ())

/-- `EXPIRE_FUDGE`: refresh this many seconds before actual expiry. -/
def EXPIRE_FUDGE : Int := 10

/-- `getTimestampFromToken`: `jwtDecode(token)` followed by reading the `exp`
property. A decode failure (malformed token) propagates: there is no
try/catch in the source. -/
def getTimestampFromToken (env : Env) (token : Token) : Except JsError (Option Int) :=
  (env.jwtDecode token).map (fun decoded => decoded.exp)

/-- `getExpiresIn`: `-1` when the timestamp is absent or `0` (JS
`if (!expiration) return -1`), otherwise `expiration - Date.now() / 1000`. -/
def getExpiresIn (env : Env) (token : Token) : Except JsError Int :=
  (getTimestampFromToken env token).map (fun expiration =>
    match expiration with
    | none => -1
    | some e => if e = 0 then -1 else e - env.now)

/-- `isTokenExpired`: `true` for a falsy token, otherwise
`!expiresIn || expiresIn <= EXPIRE_FUDGE` (a decode failure propagates). -/
def isTokenExpired (env : Env) (token : Token) : Except JsError Bool :=
  if token = "" then .ok true
  else (getExpiresIn env token).map (fun expiresIn =>
    decide (expiresIn = 0) || decide (expiresIn ≤ EXPIRE_FUDGE))

/-- The error thrown when the callback result has an unrecognized shape. -/
def protocolViolationError : JsError :=
  JsError.plain "requestRefresh must either return a string or an object with an accessToken"

/-- `typeof newTokens === 'object' && newTokens?.accessToken`: an object (or
`null`) whose `accessToken` property is truthy. -/
def isObjTruthyAccessToken : RefreshResult → Bool
  | .obj (some a) _ => decide (a ≠ "")
  | _ => false

/-- The `catch` block of `refreshToken`: read `error?.response?.status`; on
401 or 422 remove the stored record and throw
`` `Got ${status} on token refresh; clearing both auth tokens` ``; otherwise
rethrow `new Error(error)` leaving storage untouched. -/
def refreshCatch (s : Storage) (e : JsError) : Storage × Except JsError Token :=
  match e.status with
  | some st =>
      if st = 401 ∨ st = 422 then
        (none, .error (JsError.plain
          ("Got " ++ toString st ++ " on token refresh; clearing both auth tokens")))
      else
        (s, .error (JsError.plain (errToString e)))
  | none => (s, .error (JsError.plain (errToString e)))

/-- `refreshToken` (private): read the stored refresh token, throw
`'No refresh token available'` when it is falsy, otherwise invoke
`requestRefresh` exactly once and store its result according to shape; every
failure inside the `try` (callback rejection, bad shape, `setAccessToken`
failure) goes through `refreshCatch`. The middle component counts refresh
callback invocations. -/
def refreshToken (env : Env) (s : Storage) : Storage × Nat × Except JsError Token :=
  let rt := getRefreshToken s
  if jsTruthyOptStr rt then
    let rtv := rt.getD ""
    match env.requestRefresh rtv with
    | .error e =>
        let res := refreshCatch s e
        (res.1, 1, res.2)
    | .ok (.obj (some a) r) =>
        if a ≠ "" then
          (setAuthTokens ⟨some a, r⟩ s, 1, .ok a)
        else
          -- an object with a falsy accessToken fails both shape checks
          let res := refreshCatch s protocolViolationError
          (res.1, 1, res.2)
    | .ok (.str t) =>
        let stored := setAccessToken t s
        (match stored.2 with
         | .ok _ => (stored.1, 1, .ok t)
         | .error e =>
             let res := refreshCatch stored.1 e
             (res.1, 1, res.2))
    | .ok _ =>
        let res := refreshCatch s protocolViolationError
        (res.1, 1, res.2)
  else
    (s, 0, .error (JsError.plain "No refresh token available"))

/-- `refreshTokenIfNeeded` (exported): use the stored access token if it is
truthy and not expired, otherwise exchange it via `refreshToken`. The middle
component counts refresh callback invocations. -/
def refreshTokenIfNeeded (env : Env) (s : Storage) :
    Storage × Nat × Except JsError (Option Token) :=
  let accessToken := getAccessToken s
  if jsTruthyOptStr accessToken then
    match isTokenExpired env (accessToken.getD "") with
    | .error e => (s, 0, .error e)
    | .ok true =>
        let res := refreshToken env s
        (res.1, res.2.1, res.2.2.map some)
    | .ok false => (s, 0, .ok accessToken)
  else
    let res := refreshToken env s
    (res.1, res.2.1, res.2.2.map some)

/-!
## The interceptor concurrency model

`authTokenInterceptor` tasks run under single-threaded cooperative
scheduling: the code between two suspension points (`await`s) is one atomic
segment. Each in-flight interceptor invocation is a task; a schedule is a
list of task indices, and stepping a task executes its next atomic segment:

* a `ready` task executes the segment that reads the stored refresh token and
  immediately branches on it: pass through with no auth header when it is
  falsy, push a waiter onto `queue` when `isRefreshing` is set, otherwise set
  `isRefreshing` (synchronously, before the refresh path's first suspension
  point) and become the `leading` task;
* the `leading` task's refresh (`await refreshTokenIfNeeded(...)` followed by
  the synchronous `resolveQueue`/`declineQueue`, `finally isRefreshing =
  false`, and header attachment) settles in one step.  The refresh body is
  run atomically at settle time over the then-current storage: this is
  faithful because the only other enabled segments — arriving tasks that
  enqueue or pass through — never write storage or read the queue, so its
  suspension points commute with them.

Waiter continuations (`.then(token => ...headers[header] = prefix + token)`)
are recorded at settle time as the waiter's final outcome; `.catch(
Promise.reject)` is modelled as re-rejection with the same reason. Outcomes
record the token attached to the auth header (or the failure); the constant
header name and prefix are elided. -/

/-- A settled interceptor call: the request config was forwarded with the
auth header built from the given token (`none` = no auth header set), or the
call rejected with an error. -/
inductive Outcome where
  | okHeader (tok : Option Token)
  | failed (e : JsError)
deriving DecidableEq

/-- Phase of one interceptor invocation. -/
inductive TaskState where
  | ready
  | queuedW
  | leading
  | done (r : Outcome)
deriving DecidableEq

/-- The module-level coordinator state plus the tasks and a global count of
refresh callback invocations. -/
structure Sys where
  storage : Storage
  isRefreshing : Bool
  queue : List Nat
  tasks : List TaskState
  calls : Nat

/-- JS template-literal interpolation of a `string | undefined` value
(`undefined` interpolates as the text `"undefined"`). -/
def jsStringInterp : Option String → String
  | none => "undefined"
  | some s => s

/-- Settle every task in `q` to the state `v` (`queue.forEach(p => ...)`). -/
def setAll (q : List Nat) (v : TaskState) (ts : List TaskState) : List TaskState :=
  q.foldl (fun acc j => acc.set j v) ts

/-- `resolveQueue(token)`: each waiter resolves with `token`; its
continuation sets the header to `` `${headerPrefix}${token}` `` and forwards
the request. -/
def resolveQueueTasks (q : List Nat) (tok : Option Token) (ts : List TaskState) :
    List TaskState :=
  setAll q (.done (.okHeader (some (jsStringInterp tok)))) ts

/-- `declineQueue(error)`: each waiter rejects with the refresh error. -/
def declineQueueTasks (q : List Nat) (e : JsError) (ts : List TaskState) :
    List TaskState :=
  setAll q (.done (.failed e)) ts

/-- The error the original caller throws when the refresh fails:
`` new Error(`Unable to refresh access token for request due to token refresh
error: ${error.message}`) ``. -/
def wrapInterceptorError (e : JsError) : JsError :=
  JsError.plain
    ("Unable to refresh access token for request due to token refresh error: " ++ e.msg)

/-- First segment of an interceptor call (see the section comment). -/
def interceptorStart (sys : Sys) (i : Nat) : Sys :=
  let rt := getRefreshToken sys.storage
  if jsTruthyOptStr rt then
    if sys.isRefreshing then
      { sys with queue := sys.queue ++ [i], tasks := sys.tasks.set i .queuedW }
    else
      { sys with isRefreshing := true, tasks := sys.tasks.set i .leading }
  else
    { sys with tasks := sys.tasks.set i (.done (.okHeader none)) }

/-- Settling segment of the leading task: run `refreshTokenIfNeeded` over the
current storage, release the queue with its result, clear the flag
(`finally`), and settle the leader (`if (accessToken)` guards its header). -/
def settleStep (env : Env) (sys : Sys) (i : Nat) : Sys :=
  let res := refreshTokenIfNeeded env sys.storage
  match res.2.2 with
  | .ok tok =>
      let leaderOut : Outcome :=
        if jsTruthyOptStr tok then .okHeader tok else .okHeader none
      { storage := res.1, isRefreshing := false, queue := [],
        tasks := (resolveQueueTasks sys.queue tok sys.tasks).set i (.done leaderOut),
        calls := sys.calls + res.2.1 }
  | .error e =>
      { storage := res.1, isRefreshing := false, queue := [],
        tasks := (declineQueueTasks sys.queue e sys.tasks).set i
          (.done (.failed (wrapInterceptorError e))),
        calls := sys.calls + res.2.1 }

/-- One scheduler step: run the next atomic segment of task `i` (tasks that
are queued or settled have no enabled segment). -/
def step (env : Env) (sys : Sys) (i : Nat) : Sys :=
  match sys.tasks.get? i with
  | some .ready => interceptorStart sys i
  | some .leading => settleStep env sys i
  | _ => sys

/-- Run a schedule. -/
def run (env : Env) (sys : Sys) : List Nat → Sys
  | [] => sys
  | i :: rest => run env (step env sys i) rest

/-- Initial state: `n` interceptor calls about to run against storage `s`,
idle flag, empty queue (module initialization). -/
def initSys (s : Storage) (n : Nat) : Sys :=
  { storage := s, isRefreshing := false, queue := [],
    tasks := List.replicate n .ready, calls := 0 }

/-- The outcome every waiter of a cycle receives, as a function of the
storage at settle time. -/
def cycleOutcome (env : Env) (s : Storage) : Outcome :=
  match (refreshTokenIfNeeded env s).2.2 with
  | .ok tok => .okHeader (some (jsStringInterp tok))
  | .error e => .failed e

/-- A direct (non-interceptor) call of the exported `refreshTokenIfNeeded`
against the global state: it touches only the storage cell. -/
def refreshTokenIfNeededDirect (env : Env) (sys : Sys) :
    Sys × Except JsError (Option Token) :=
  let res := refreshTokenIfNeeded env sys.storage
  ({ sys with storage := res.1, calls := sys.calls + res.2.1 }, res.2.2)

/-! ## Helper lemmas -/

theorem setAll_length (q : List Nat) (v : TaskState) (ts : List TaskState) :
    (setAll q v ts).length = ts.length := by
  induction q generalizing ts with
  | nil => rfl
  | cons k rest ih =>
      show (setAll rest v (ts.set k v)).length = ts.length
      rw [ih (ts.set k v), List.length_set ts k v]

theorem setAll_get_of_not_mem (q : List Nat) (v : TaskState) (ts : List TaskState)
    (j : Nat) (hj : j ∉ q) : (setAll q v ts).get? j = ts.get? j := by
  induction q generalizing ts with
  | nil => rfl
  | cons k rest ih =>
      have hkj : k ≠ j := fun h => hj (h ▸ List.mem_cons_self k rest)
      have hjr : j ∉ rest := fun h => hj (List.mem_cons_of_mem k h)
      show (setAll rest v (ts.set k v)).get? j = ts.get? j
      rw [ih (ts.set k v) hjr, List.get?_set_ne v ts hkj]

theorem setAll_get_of_mem (q : List Nat) (v : TaskState) (ts : List TaskState)
    (j : Nat) (hj : j ∈ q) (hlen : j < ts.length) :
    (setAll q v ts).get? j = some v := by
  induction q generalizing ts with
  | nil => cases hj
  | cons k rest ih =>
      show (setAll rest v (ts.set k v)).get? j = some v
      by_cases hr : j ∈ rest
      · exact ih (ts.set k v) hr (by rw [List.length_set]; exact hlen)
      · have hk : j = k := by
          rcases List.mem_cons.mp hj with h | h
          · exact h
          · exact absurd h hr
        subst hk
        rw [setAll_get_of_not_mem rest v (ts.set j v) j hr]
        exact List.get?_set_eq_of_lt v hlen

theorem get_some_lt {ts : List TaskState} {j : Nat} {t : TaskState}
    (h : ts.get? j = some t) : j < ts.length :=
  (List.get?_eq_some.mp h).1

/-- Coordinator-state invariant maintained across all interleavings. -/
structure SysInv (sys : Sys) : Prop where
  idle_queue : sys.isRefreshing = false → sys.queue = []
  mem_queuedW : ∀ j ∈ sys.queue, sys.tasks.get? j = some .queuedW
  queuedW_mem : ∀ j, sys.tasks.get? j = some .queuedW → j ∈ sys.queue
  nodup : sys.queue.Nodup

theorem sysInv_init (s : Storage) (n : Nat) : SysInv (initSys s n) := by
  refine ⟨fun _ => rfl, ?_, ?_, List.nodup_nil⟩
  · intro j hj; cases hj
  · intro j hj
    rcases Nat.lt_or_ge j n with h | h
    · rw [show (initSys s n).tasks = List.replicate n .ready from rfl] at hj
      rw [List.get?_eq_get (by simpa using h)] at hj
      simp [List.get_replicate] at hj
    · rw [show (initSys s n).tasks = List.replicate n .ready from rfl] at hj
      rw [List.get?_eq_none.mpr (by simpa using h)] at hj
      cases hj

theorem step_of_ready_leading {env : Env} {sys : Sys} {i : Nat}
    (hti : sys.tasks.get? i = some .ready)
    (hrt : jsTruthyOptStr (getRefreshToken sys.storage) = true)
    (hfl : sys.isRefreshing = false) :
    step env sys i = { sys with isRefreshing := true, tasks := sys.tasks.set i .leading } := by
  unfold step; rw [hti]; simp [interceptorStart, hrt, hfl]

theorem step_of_ready_enqueue {env : Env} {sys : Sys} {i : Nat}
    (hti : sys.tasks.get? i = some .ready)
    (hrt : jsTruthyOptStr (getRefreshToken sys.storage) = true)
    (hfl : sys.isRefreshing = true) :
    step env sys i =
      { sys with queue := sys.queue ++ [i], tasks := sys.tasks.set i .queuedW } := by
  unfold step; rw [hti]; simp [interceptorStart, hrt, hfl]

theorem step_of_ready_passthrough {env : Env} {sys : Sys} {i : Nat}
    (hti : sys.tasks.get? i = some .ready)
    (hrt : jsTruthyOptStr (getRefreshToken sys.storage) = false) :
    step env sys i = { sys with tasks := sys.tasks.set i (.done (.okHeader none)) } := by
  unfold step; rw [hti]; simp [interceptorStart, hrt]

theorem step_of_leading {env : Env} {sys : Sys} {i : Nat}
    (hti : sys.tasks.get? i = some .leading) :
    step env sys i = settleStep env sys i := by
  unfold step; rw [hti]

theorem settleStep_isRefreshing (env : Env) (sys : Sys) (i : Nat) :
    (settleStep env sys i).isRefreshing = false := by
  cases h : (refreshTokenIfNeeded env sys.storage).2.2 <;> simp [settleStep, h]

theorem settleStep_queue (env : Env) (sys : Sys) (i : Nat) :
    (settleStep env sys i).queue = [] := by
  cases h : (refreshTokenIfNeeded env sys.storage).2.2 <;> simp [settleStep, h]

theorem settleStep_storage (env : Env) (sys : Sys) (i : Nat) :
    (settleStep env sys i).storage = (refreshTokenIfNeeded env sys.storage).1 := by
  cases h : (refreshTokenIfNeeded env sys.storage).2.2 <;> simp [settleStep, h]

theorem settleStep_calls (env : Env) (sys : Sys) (i : Nat) :
    (settleStep env sys i).calls = sys.calls + (refreshTokenIfNeeded env sys.storage).2.1 := by
  cases h : (refreshTokenIfNeeded env sys.storage).2.2 <;> simp [settleStep, h]

/-- The tasks after settling: the queue is released first, then the leader
settles with its own outcome. -/
theorem settleStep_tasks (env : Env) (sys : Sys) (i : Nat) :
    (settleStep env sys i).tasks =
      (setAll sys.queue (.done (cycleOutcome env sys.storage)) sys.tasks).set i
        (.done (match (refreshTokenIfNeeded env sys.storage).2.2 with
          | .ok tok => if jsTruthyOptStr tok then .okHeader tok else .okHeader none
          | .error e => .failed (wrapInterceptorError e))) := by
  cases h : (refreshTokenIfNeeded env sys.storage).2.2 <;>
    simp [settleStep, cycleOutcome, h, resolveQueueTasks, declineQueueTasks]

/-- Every waiter queued at settle time is settled with the single cycle
outcome. -/
theorem settleStep_waiter {env : Env} {sys : Sys} {i : Nat}
    (inv : SysInv sys) (hti : sys.tasks.get? i = some .leading)
    {j : Nat} (hj : j ∈ sys.queue) :
    (settleStep env sys i).tasks.get? j = some (.done (cycleOutcome env sys.storage)) := by
  have hjW : sys.tasks.get? j = some .queuedW := inv.mem_queuedW j hj
  have hij : i ≠ j := by
    intro h; subst h; rw [hti] at hjW; cases hjW
  have hjlen : j < sys.tasks.length := get_some_lt hjW
  rw [settleStep_tasks, List.get?_set_ne _ _ hij,
    setAll_get_of_mem sys.queue _ sys.tasks j hj hjlen]

/-- Invariant preservation under one scheduler step. -/
theorem sysInv_step (env : Env) (sys : Sys) (i : Nat) (h : SysInv sys) :
    SysInv (step env sys i) := by
  cases hti : sys.tasks.get? i with
  | none => unfold step; rw [hti]; exact h
  | some t =>
    cases t with
    | queuedW => unfold step; rw [hti]; exact h
    | done r => unfold step; rw [hti]; exact h
    | ready =>
        cases hrt : jsTruthyOptStr (getRefreshToken sys.storage) with
        | false =>
            rw [step_of_ready_passthrough hti hrt]
            refine ⟨h.idle_queue, ?_, ?_, h.nodup⟩
            · intro j hj
              have hjW := h.mem_queuedW j hj
              have hij : i ≠ j := by
                intro hh; subst hh; rw [hti] at hjW; cases hjW
              rw [List.get?_set_ne _ _ hij]; exact hjW
            · intro j hj
              by_cases hij : i = j
              · subst hij
                rw [List.get?_set_eq_of_lt _ (get_some_lt hti)] at hj
                cases hj
              · rw [List.get?_set_ne _ _ hij] at hj
                exact h.queuedW_mem j hj
        | true =>
            cases hfl : sys.isRefreshing with
            | true =>
                rw [step_of_ready_enqueue hti hrt hfl]
                have hiq : i ∉ sys.queue := by
                  intro hmem
                  have := h.mem_queuedW i hmem
                  rw [hti] at this; cases this
                refine ⟨?_, ?_, ?_, ?_⟩
                · intro hf; rw [hfl] at hf; cases hf
                · intro j hj
                  rcases List.mem_append.mp hj with hj1 | hj2
                  · have hjW := h.mem_queuedW j hj1
                    have hij : i ≠ j := by
                      intro hh; subst hh; rw [hti] at hjW; cases hjW
                    rw [List.get?_set_ne _ _ hij]; exact hjW
                  · have hji : j = i := by simpa using hj2
                    subst hji
                    exact List.get?_set_eq_of_lt _ (get_some_lt hti)
                · intro j hj
                  by_cases hij : i = j
                  · subst hij; exact List.mem_append.mpr (Or.inr (by simp))
                  · rw [List.get?_set_ne _ _ hij] at hj
                    exact List.mem_append.mpr (Or.inl (h.queuedW_mem j hj))
                · rw [List.nodup_append]
                  refine ⟨h.nodup, List.nodup_singleton i, fun a ha hai => ?_⟩
                  have : a = i := by simpa using hai
                  exact hiq (this ▸ ha)
            | false =>
                rw [step_of_ready_leading hti hrt hfl]
                have hq : sys.queue = [] := h.idle_queue hfl
                refine ⟨?_, ?_, ?_, ?_⟩
                · intro hf; cases hf
                · intro j hj; rw [hq] at hj; cases hj
                · intro j hj
                  by_cases hij : i = j
                  · subst hij
                    rw [List.get?_set_eq_of_lt _ (get_some_lt hti)] at hj
                    cases hj
                  · rw [List.get?_set_ne _ _ hij] at hj
                    exact h.queuedW_mem j hj
                · rw [hq]; exact List.nodup_nil
    | leading =>
        rw [step_of_leading hti]
        refine ⟨fun _ => settleStep_queue env sys i, ?_, ?_, ?_⟩
        · intro j hj; rw [settleStep_queue] at hj; cases hj
        · intro j hj
          exfalso
          rw [settleStep_tasks] at hj
          by_cases hij : i = j
          · subst hij
            rw [List.get?_set_eq_of_lt _
              (by rw [setAll_length]; exact get_some_lt hti)] at hj
            cases (refreshTokenIfNeeded env sys.storage).2.2 <;> simp at hj
          · rw [List.get?_set_ne _ _ hij] at hj
            by_cases hjq : j ∈ sys.queue
            · rw [setAll_get_of_mem sys.queue _ sys.tasks j hjq
                (get_some_lt (h.mem_queuedW j hjq))] at hj
              cases hj
            · rw [setAll_get_of_not_mem sys.queue _ sys.tasks j hjq] at hj
              exact hjq (h.queuedW_mem j hj)
        · rw [settleStep_queue]; exact List.nodup_nil

theorem sysInv_run (env : Env) (sys : Sys) (sched : List Nat) (h : SysInv sys) :
    SysInv (run env sys sched) := by
  induction sched generalizing sys with
  | nil => exact h
  | cons i rest ih => exact ih (step env sys i) (sysInv_step env sys i h)

theorem storage_some_of_truthy {s : Storage}
    (hrt : jsTruthyOptStr (getRefreshToken s) = true) : ∃ p, s = some p := by
  cases s with
  | none => simp [getRefreshToken, getAuthTokens, jsTruthyOptStr] at hrt
  | some p => exact ⟨p, rfl⟩

theorem refreshToken_count_of_truthy (env : Env) (s : Storage)
    (hrt : jsTruthyOptStr (getRefreshToken s) = true) :
    (refreshToken env s).2.1 = 1 := by
  simp only [refreshToken, hrt, if_true]
  cases h : env.requestRefresh ((getRefreshToken s).getD "") with
  | error e => simp [h]
  | ok res =>
      cases res with
      | str t => cases h2 : (setAccessToken t s).2 <;> simp [h, h2]
      | obj a r =>
          cases a with
          | none => simp [h]
          | some a0 => by_cases ha : a0 = "" <;> simp [h, ha]
      | nullv => simp [h]
      | other => simp [h]

theorem refreshToken_count_le (env : Env) (s : Storage) :
    (refreshToken env s).2.1 ≤ 1 := by
  cases hrt : jsTruthyOptStr (getRefreshToken s) with
  | true => rw [refreshToken_count_of_truthy env s hrt]
  | false => simp [refreshToken, hrt]

theorem refreshTokenIfNeeded_count_le (env : Env) (s : Storage) :
    (refreshTokenIfNeeded env s).2.1 ≤ 1 := by
  simp only [refreshTokenIfNeeded]
  cases hat : jsTruthyOptStr (getAccessToken s) with
  | false => simpa [hat] using refreshToken_count_le env s
  | true =>
      simp only [hat, if_true]
      cases hexp : isTokenExpired env ((getAccessToken s).getD "") with
      | error e => simp
      | ok b =>
          cases b with
          | false => simp [hexp]
          | true => simpa [hexp] using refreshToken_count_le env s

/-- When a refresh is actually needed (access token falsy or expired) and a
refresh token is stored, `refreshTokenIfNeeded` invokes the callback exactly
once. -/
theorem refreshTokenIfNeeded_count_one (env : Env) (s : Storage)
    (hrt : jsTruthyOptStr (getRefreshToken s) = true)
    (hneed : jsTruthyOptStr (getAccessToken s) = false ∨
      isTokenExpired env ((getAccessToken s).getD "") = .ok true) :
    (refreshTokenIfNeeded env s).2.1 = 1 := by
  simp only [refreshTokenIfNeeded]
  cases hat : jsTruthyOptStr (getAccessToken s) with
  | false => simpa [hat] using refreshToken_count_of_truthy env s hrt
  | true =>
      rcases hneed with h | hexp
      · rw [hat] at h; cases h
      · simpa [hat, hexp] using refreshToken_count_of_truthy env s hrt

/-! ## Concrete environments and storage states used by witnesses -/

/-- A stored pair with an (expired, see the environments below) access token
and refresh token `"r1"`. -/
def sPair : Storage := some ⟨some "atok", some "r1"⟩

/-- Every token decodes with `exp` 100 seconds in the past; the callback
resolves with the bare string `"new-token"` for refresh token `"r1"`. -/
def envRefreshOkStr : Env :=
  { now := 0, jwtDecode := fun _ => .ok ⟨some (-100)⟩,
    requestRefresh := fun rt => if rt = "r1" then .ok (.str "new-token") else .ok .other }

/-- Every token decodes as expired; the callback rejects with a status-less
(network-style) error. -/
def envNet : Env :=
  { now := 0, jwtDecode := fun _ => .ok ⟨some (-100)⟩,
    requestRefresh := fun _ => .error (JsError.plain "network down") }

/-- Every token decodes as expired; the callback rejects with HTTP 401. -/
def env401 : Env :=
  { now := 0, jwtDecode := fun _ => .ok ⟨some (-100)⟩,
    requestRefresh := fun _ => .error ⟨some 401, "unauthorized"⟩ }

/-- Every token decodes with `exp` 100 seconds in the future; the callback is
never consulted. -/
def envFuture : Env :=
  { now := 0, jwtDecode := fun _ => .ok ⟨some 100⟩,
    requestRefresh := fun _ => .ok .other }

/-- Every token decodes to a payload with no `exp` claim. -/
def envNoExp : Env :=
  { now := 0, jwtDecode := fun _ => .ok ⟨none⟩,
    requestRefresh := fun _ => .ok .other }

/-- Every token decodes as expired; the callback resolves with `null`. -/
def envBadShape : Env :=
  { now := 0, jwtDecode := fun _ => .ok ⟨some (-100)⟩,
    requestRefresh := fun _ => .ok .nullv }

/-- Claim C2: after a refresh callback rejection, the stored token pair is
deleted entirely before the error propagates if and only if the rejection
carries an HTTP status of 401 or 422 (`error.response.status`); for every
other rejection the stored tokens are left exactly as they were, so
`getRefreshToken` still returns the original value. -/
theorem refresh_failure_classification (env : Env) (s : Storage) (e : JsError)
    (hrt : jsTruthyOptStr (getRefreshToken s) = true)
    (hcb : env.requestRefresh ((getRefreshToken s).getD "") = .error e) :
    (∃ e2, (refreshToken env s).2.2 = .error e2) ∧
    ((refreshToken env s).1 = none ↔ (e.status = some 401 ∨ e.status = some 422)) ∧
    (¬(e.status = some 401 ∨ e.status = some 422) →
      (refreshToken env s).1 = s ∧
      getRefreshToken (refreshToken env s).1 = getRefreshToken s) := by
  obtain ⟨p, hp⟩ := storage_some_of_truthy hrt
  simp only [refreshToken, hrt, if_true, hcb]
  cases hst : e.status with
  | none =>
      refine ⟨⟨JsError.plain (errToString e), by simp [refreshCatch, hst]⟩, ?_,
        fun _ => by simp [refreshCatch, hst]⟩
      simp [refreshCatch, hst, hp]
  | some st =>
      by_cases h4 : st = 401 ∨ st = 422
      · refine ⟨⟨JsError.plain ("Got " ++ toString st ++ " on token refresh; clearing both auth tokens"),
          by simp [refreshCatch, hst, h4]⟩, ?_, ?_⟩
        · simp [refreshCatch, hst, h4]
        · intro hn
          exfalso
          rcases h4 with h | h <;> subst h
          · exact hn (Or.inl rfl)
          · exact hn (Or.inr rfl)
      · refine ⟨⟨JsError.plain (errToString e), by simp [refreshCatch, hst, h4]⟩, ?_,
          fun _ => by simp [refreshCatch, hst, h4]⟩
        simp only [refreshCatch, hst]
        rw [if_neg h4]
        simp only [hp]
        constructor
        · intro hh; cases hh
        · intro hh
          exfalso
          rcases hh with hh | hh
          · exact h4 (Or.inl (Option.some.inj hh))
          · exact h4 (Or.inr (Option.some.inj hh))

theorem refresh_failure_classification_witness :
    jsTruthyOptStr (getRefreshToken sPair) = true ∧
    env401.requestRefresh ((getRefreshToken sPair).getD "") =
      .error ⟨some 401, "unauthorized"⟩ ∧
    ((∃ e2, (refreshToken env401 sPair).2.2 = .error e2) ∧
     ((refreshToken env401 sPair).1 = none ↔
       ((⟨some 401, "unauthorized"⟩ : JsError).status = some 401 ∨
        (⟨some 401, "unauthorized"⟩ : JsError).status = some 422)) ∧
     (¬((⟨some 401, "unauthorized"⟩ : JsError).status = some 401 ∨
        (⟨some 401, "unauthorized"⟩ : JsError).status = some 422) →
       (refreshToken env401 sPair).1 = sPair ∧
       getRefreshToken (refreshToken env401 sPair).1 = getRefreshToken sPair)) :=
  ⟨by decide, by decide,
    refresh_failure_classification env401 sPair ⟨some 401, "unauthorized"⟩
      (by decide) (by decide)⟩

/-- Claim C3: for every access token whose decoded `exp` claim is more than 10
seconds after the current Unix time, `isTokenExpired` returns false; for every
token whose `exp` is within 10 seconds of now or in the past, it returns
true; and for a missing token or one whose `exp` claim is absent it returns
true (the absent claim is turned into the sentinel `secondsRemaining = -1` by
`getExpiresIn`). -/
theorem expiry_policy (env : Env) (token : Token) (e : Int) :
    (env.jwtDecode token = .ok ⟨some e⟩ → token ≠ "" → 0 ≤ env.now →
      env.now + 10 < e → isTokenExpired env token = .ok false) ∧
    (env.jwtDecode token = .ok ⟨some e⟩ → e ≤ env.now + 10 →
      isTokenExpired env token = .ok true) ∧
    (token = "" → isTokenExpired env token = .ok true) ∧
    (env.jwtDecode token = .ok ⟨none⟩ → token ≠ "" →
      getExpiresIn env token = .ok (-1) ∧ isTokenExpired env token = .ok true) := by
  refine ⟨?_, ?_, ?_, ?_⟩
  · intro hdec hne hnow hgt
    have h0 : ¬(e = 0) := by omega
    have h1 : ¬(e - env.now = 0) := by omega
    have h2 : ¬(e - env.now ≤ EXPIRE_FUDGE) := by
      simp only [EXPIRE_FUDGE]; omega
    simp [isTokenExpired, getExpiresIn, getTimestampFromToken, hdec, hne, h0,
      Except.map, h1, h2]
  · intro hdec hle
    by_cases hne : token = ""
    · simp [isTokenExpired, hne]
    · by_cases h0 : e = 0
      · simp [isTokenExpired, getExpiresIn, getTimestampFromToken, hdec, hne, h0,
          Except.map, EXPIRE_FUDGE]
      · have h12 : e - env.now = 0 ∨ e - env.now ≤ EXPIRE_FUDGE := by
          simp only [EXPIRE_FUDGE]; omega
        rcases h12 with h | h <;>
          simp [isTokenExpired, getExpiresIn, getTimestampFromToken, hdec, hne, h0,
            Except.map, h]
  · intro hne
    simp [isTokenExpired, hne]
  · intro hdec hne
    simp [isTokenExpired, getExpiresIn, getTimestampFromToken, hdec, hne, Except.map,
      EXPIRE_FUDGE]

theorem expiry_policy_witness :
    isTokenExpired envFuture "atok" = .ok false ∧
    isTokenExpired envRefreshOkStr "atok" = .ok true ∧
    isTokenExpired envFuture "" = .ok true ∧
    (getExpiresIn envNoExp "atok" = .ok (-1) ∧
      isTokenExpired envNoExp "atok" = .ok true) :=
  ⟨(expiry_policy envFuture "atok" 100).1 (by decide) (by decide) (by decide) (by decide),
   (expiry_policy envRefreshOkStr "atok" (-100)).2.1 (by decide) (by decide),
   (expiry_policy envFuture "" 0).2.2.1 (by decide),
   (expiry_policy envNoExp "atok" 0).2.2.2 (by decide) (by decide)⟩

/-- Structural fragment of the `jwt-decode` library (v3): `jwtDecode` computes
`JSON.parse(base64_url_decode(token.split('.')[1]))` inside a try/catch whose
handler rethrows `InvalidTokenError('Invalid token specified...')`. A token
containing no `'.'` splits into a single part, so segment 1 is `undefined`
and the library throws. For tokens that do have a payload segment the decoded
payload is supplied by the `payloads` parameter (the base64url/JSON pipeline
itself is not modelled; it can also throw, via the same handler). -/
def jwtDecodeModel (payloads : Token → Except JsError JwtPayload) (token : Token) :
    Except JsError JwtPayload :=
  if '.' ∈ token.toList then payloads token
  else .error (JsError.plain "Invalid token specified")

/-- A concrete environment whose decoder follows `jwtDecodeModel` (payload
segments decode to an empty payload). -/
def envGarbage : Env :=
  { now := 0, jwtDecode := jwtDecodeModel (fun _ => .ok ⟨none⟩),
    requestRefresh := fun _ => .ok .other }

/-- Claim C4 counterexample: on the malformed token `"garbage"` (no payload
segment, so `jwt-decode` throws `InvalidTokenError`), the expiry-decoding
step `getTimestampFromToken` throws — it propagates the decode error instead
of returning undefined — and `isTokenExpired` throws with it. -/
theorem codec_totality_counterexample :
    getTimestampFromToken envGarbage "garbage" =
      .error (JsError.plain "Invalid token specified") ∧
    getTimestampFromToken envGarbage "garbage" ≠ .ok none ∧
    isTokenExpired envGarbage "garbage" =
      .error (JsError.plain "Invalid token specified") := by
  refine ⟨by decide, by decide, by decide⟩

/-- Claim C4 amended: the expiry-decoding step returns the numeric `exp`
claim when `jwtDecode` succeeds and the claim is present, and returns
undefined when the decoded payload lacks the claim; but for a malformed or
unparseable token, on which `jwtDecode` throws, the error propagates out of
`getTimestampFromToken` (there is no try/catch), and `isTokenExpired`
propagates it in turn. -/
theorem codec_exp_extraction (env : Env) (token : Token) (p : JwtPayload) (e : JsError) :
    (env.jwtDecode token = .ok p → getTimestampFromToken env token = .ok p.exp) ∧
    (env.jwtDecode token = .error e →
      getTimestampFromToken env token = .error e ∧
      (token ≠ "" → isTokenExpired env token = .error e)) := by
  constructor
  · intro hdec
    simp [getTimestampFromToken, hdec, Except.map]
  · intro hdec
    constructor
    · simp [getTimestampFromToken, hdec, Except.map]
    · intro hne
      simp [isTokenExpired, getExpiresIn, getTimestampFromToken, hdec, hne, Except.map]

theorem codec_exp_extraction_witness :
    (getTimestampFromToken envGarbage "h.p" = .ok none) ∧
    (getTimestampFromToken envGarbage "garbage" =
        .error (JsError.plain "Invalid token specified") ∧
      ("garbage" ≠ "" → isTokenExpired envGarbage "garbage" =
        .error (JsError.plain "Invalid token specified"))) :=
  ⟨(codec_exp_extraction envGarbage "h.p" ⟨none⟩
      (JsError.plain "Invalid token specified")).1 (by decide),
   (codec_exp_extraction envGarbage "garbage" ⟨none⟩
      (JsError.plain "Invalid token specified")).2 (by decide)⟩

/-- Claim C5 counterexample: with nothing stored, `refreshTokenIfNeeded` does
not return undefined — it fails with the `'No refresh token available'`
error. -/
theorem no_refresh_token_counterexample :
    (refreshTokenIfNeeded envNet none).2.2 =
      .error (JsError.plain "No refresh token available") ∧
    (refreshTokenIfNeeded envNet none).2.2 ≠ .ok none ∧
    (refreshTokenIfNeeded envNet none).1 = none := by
  refine ⟨by decide, by decide, by decide⟩

/-- Claim C5 amended: for every storage state with no (truthy) refresh token
stored and no usable access token, `refreshTokenIfNeeded` fails with the
`'No refresh token available'` error (the NoRefreshToken case surfaced to the
caller) without invoking the refresh callback and without touching storage;
the return-undefined-and-proceed-unauthenticated behavior belongs to the
interceptor, which forwards the request config with no auth header when no
refresh token is stored. -/
theorem no_refresh_token_behavior (env : Env) (s : Storage) (sys : Sys) (i : Nat)
    (hrt : jsTruthyOptStr (getRefreshToken s) = false)
    (hat : jsTruthyOptStr (getAccessToken s) = false) :
    refreshTokenIfNeeded env s =
      (s, 0, .error (JsError.plain "No refresh token available")) ∧
    (sys.tasks.get? i = some .ready → sys.storage = s →
      step env sys i = { sys with tasks := sys.tasks.set i (.done (.okHeader none)) }) := by
  constructor
  · simp [refreshTokenIfNeeded, hat, refreshToken, hrt, Except.map]
  · intro hti hst
    exact step_of_ready_passthrough hti (by rw [hst]; exact hrt)

theorem no_refresh_token_behavior_witness :
    refreshTokenIfNeeded envNet none =
      (none, 0, .error (JsError.plain "No refresh token available")) ∧
    ((initSys none 1).tasks.get? 0 = some .ready → (initSys none 1).storage = none →
      step envNet (initSys none 1) 0 =
        { initSys none 1 with
            tasks := (initSys none 1).tasks.set 0 (.done (.okHeader none)) }) :=
  no_refresh_token_behavior envNet none (initSys none 1) 0 (by decide) (by decide)

/-- Claim C7: when the stored access token is expired, a stored refresh token
exists, and the refresh callback resolves to a bare string, then
`refreshTokenIfNeeded` persists that string as the new stored `accessToken`,
leaves the stored `refreshToken` field unchanged, returns the new token, and
the refresh callback was invoked exactly once. -/
theorem bare_token_refresh (env : Env) (a r t : Token)
    (ha : a ≠ "") (hr : r ≠ "")
    (hexp : isTokenExpired env a = .ok true)
    (hcb : env.requestRefresh r = .ok (.str t)) :
    refreshTokenIfNeeded env (some ⟨some a, some r⟩) =
      (some ⟨some t, some r⟩, 1, .ok (some t)) := by
  have hat : getAccessToken (some ⟨some a, some r⟩) = some a := rfl
  have hrt : getRefreshToken (some ⟨some a, some r⟩) = some r := rfl
  simp [refreshTokenIfNeeded, hat, jsTruthyOptStr, ha, hexp, refreshToken, hrt, hr,
    hcb, setAccessToken, getAuthTokens, setAuthTokens, Except.map]

theorem bare_token_refresh_witness :
    refreshTokenIfNeeded envRefreshOkStr (some ⟨some "atok", some "r1"⟩) =
      (some ⟨some "new-token", some "r1"⟩, 1, .ok (some "new-token")) :=
  bare_token_refresh envRefreshOkStr "atok" "r1" "new-token"
    (by decide) (by decide) (by decide) (by decide)

/-- The shapes the claim quantifies over: neither a string nor an object
containing an `accessToken` field (an object without that field, `null`, and
non-object non-string values). -/
def isProtocolViolationShape : RefreshResult → Bool
  | .str _ => false
  | .obj (some _) _ => false
  | .obj none _ => true
  | .nullv => true
  | .other => true

/-- Claim C8: for every refresh-callback result that is neither a string nor
an object containing an `accessToken` field, the refresh attempt fails with
the protocol-violation error (rethrown by the transient branch of the catch
as `new Error(error)`), that error is what `refreshTokenIfNeeded` propagates
to the caller and what every queued waiter is rejected with at the settle
step, and the stored tokens are left unchanged by the attempt. -/
theorem protocol_violation (env : Env) (s : Storage) (res : RefreshResult)
    (hrt : jsTruthyOptStr (getRefreshToken s) = true)
    (hcb : env.requestRefresh ((getRefreshToken s).getD "") = .ok res)
    (hshape : isProtocolViolationShape res = true) :
    refreshToken env s =
      (s, 1, .error (JsError.plain (errToString protocolViolationError))) ∧
    ((jsTruthyOptStr (getAccessToken s) = false ∨
        isTokenExpired env ((getAccessToken s).getD "") = .ok true) →
      refreshTokenIfNeeded env s =
        (s, 1, .error (JsError.plain (errToString protocolViolationError)))) ∧
    (∀ sys i, sys.storage = s → sys.tasks.get? i = some .leading →
      (jsTruthyOptStr (getAccessToken s) = false ∨
        isTokenExpired env ((getAccessToken s).getD "") = .ok true) →
      ∀ j ∈ sys.queue, sys.tasks.get? j = some .queuedW →
        (step env sys i).tasks.get? j =
          some (.done (.failed (JsError.plain (errToString protocolViolationError))))) := by
  have hbase : refreshToken env s =
      (s, 1, .error (JsError.plain (errToString protocolViolationError))) := by
    cases res with
    | str t => cases hshape
    | obj a r =>
        cases a with
        | some a0 => cases hshape
        | none =>
            simp [refreshToken, hrt, hcb, refreshCatch, protocolViolationError, JsError.plain]
    | nullv => simp [refreshToken, hrt, hcb, refreshCatch, protocolViolationError, JsError.plain]
    | other => simp [refreshToken, hrt, hcb, refreshCatch, protocolViolationError, JsError.plain]
  have hifneeded : (jsTruthyOptStr (getAccessToken s) = false ∨
      isTokenExpired env ((getAccessToken s).getD "") = .ok true) →
      refreshTokenIfNeeded env s =
        (s, 1, .error (JsError.plain (errToString protocolViolationError))) := by
    intro hneed
    cases hat : jsTruthyOptStr (getAccessToken s) with
    | false => simp [refreshTokenIfNeeded, hat, hbase, Except.map]
    | true =>
        rcases hneed with h | hexp
        · rw [hat] at h; cases h
        · simp [refreshTokenIfNeeded, hat, hexp, hbase, Except.map]
  refine ⟨hbase, hifneeded, ?_⟩
  intro sys i hst hti hneed j hj hjW
  have hij : i ≠ j := by
    intro h; subst h; rw [hti] at hjW; cases hjW
  have hout : cycleOutcome env sys.storage =
      .failed (JsError.plain (errToString protocolViolationError)) := by
    rw [hst, cycleOutcome, hifneeded hneed]
  rw [step_of_leading hti, settleStep_tasks, List.get?_set_ne _ _ hij,
    setAll_get_of_mem sys.queue _ sys.tasks j hj (get_some_lt hjW), hout]

theorem protocol_violation_witness :
    refreshToken envBadShape sPair =
      (sPair, 1, .error (JsError.plain (errToString protocolViolationError))) ∧
    ((jsTruthyOptStr (getAccessToken sPair) = false ∨
        isTokenExpired envBadShape ((getAccessToken sPair).getD "") = .ok true) →
      refreshTokenIfNeeded envBadShape sPair =
        (sPair, 1, .error (JsError.plain (errToString protocolViolationError)))) ∧
    (∀ sys i, sys.storage = sPair → sys.tasks.get? i = some .leading →
      (jsTruthyOptStr (getAccessToken sPair) = false ∨
        isTokenExpired envBadShape ((getAccessToken sPair).getD "") = .ok true) →
      ∀ j ∈ sys.queue, sys.tasks.get? j = some .queuedW →
        (step envBadShape sys i).tasks.get? j =
          some (.done (.failed (JsError.plain (errToString protocolViolationError))))) :=
  protocol_violation envBadShape sPair .nullv (by decide) (by decide) (by decide)

/-- Claim C10: the exported `refreshTokenIfNeeded`, called directly rather
than through the interceptor, never reads or writes the coordinator state —
the `isRefreshing` flag, the waiter queue and the tasks are untouched and its
result is independent of them — so the single-flight machinery is confined to
`authTokenInterceptor`, and two direct back-to-back `refreshTokenIfNeeded`
calls may each invoke the refresh callback (shown here on a transiently
failing refresh: both calls invoke it once). -/
theorem direct_refresh_no_coordinator_state (env : Env) (sys : Sys) :
    ((refreshTokenIfNeededDirect env sys).1.isRefreshing = sys.isRefreshing ∧
     (refreshTokenIfNeededDirect env sys).1.queue = sys.queue ∧
     (refreshTokenIfNeededDirect env sys).1.tasks = sys.tasks) ∧
    (∀ b q,
      (refreshTokenIfNeededDirect env
          { sys with isRefreshing := b, queue := q }).1.storage =
        (refreshTokenIfNeededDirect env sys).1.storage ∧
      (refreshTokenIfNeededDirect env
          { sys with isRefreshing := b, queue := q }).2 =
        (refreshTokenIfNeededDirect env sys).2) ∧
    ((refreshTokenIfNeeded envNet sPair).2.1 = 1 ∧
     (refreshTokenIfNeeded envNet (refreshTokenIfNeeded envNet sPair).1).2.1 = 1) := by
  exact ⟨⟨rfl, rfl, rfl⟩, fun b q => ⟨rfl, rfl⟩, by decide, by decide⟩

/-- Claim C9: in every reachable interleaving of interceptor calls, the
waiter queue is empty whenever the `isRefreshing` flag is false, and the
settle of an in-flight refresh (success or failure) resets the state to idle
with an empty queue in the same atomic segment in which the triggering call
settles. -/
theorem coordinator_state_invariant (env : Env) (s0 : Storage) (n : Nat)
    (sched : List Nat) (sys : Sys) (hsys : sys = run env (initSys s0 n) sched) :
    (sys.isRefreshing = false → sys.queue = []) ∧
    (∀ i, sys.tasks.get? i = some .leading →
      (step env sys i).isRefreshing = false ∧
      (step env sys i).queue = [] ∧
      ∃ r, (step env sys i).tasks.get? i = some (.done r)) := by
  have hinv : SysInv sys := hsys ▸ sysInv_run env (initSys s0 n) sched (sysInv_init s0 n)
  refine ⟨hinv.idle_queue, fun i hti => ?_⟩
  rw [step_of_leading hti]
  refine ⟨settleStep_isRefreshing env sys i, settleStep_queue env sys i,
    ⟨(match (refreshTokenIfNeeded env sys.storage).2.2 with
      | .ok tok =>
          if jsTruthyOptStr tok then Outcome.okHeader tok else Outcome.okHeader none
      | .error e => Outcome.failed (wrapInterceptorError e)), ?_⟩⟩
  rw [settleStep_tasks]
  exact List.get?_set_eq_of_lt _ (by rw [setAll_length]; exact get_some_lt hti)

theorem coordinator_state_invariant_witness :
    ((run envNet (initSys sPair 2) [0, 1]).isRefreshing = false →
      (run envNet (initSys sPair 2) [0, 1]).queue = []) ∧
    (∀ i, (run envNet (initSys sPair 2) [0, 1]).tasks.get? i = some .leading →
      (step envNet (run envNet (initSys sPair 2) [0, 1]) i).isRefreshing = false ∧
      (step envNet (run envNet (initSys sPair 2) [0, 1]) i).queue = [] ∧
      ∃ r, (step envNet (run envNet (initSys sPair 2) [0, 1]) i).tasks.get? i =
        some (.done r)) :=
  coordinator_state_invariant envNet sPair 2 [0, 1] (run envNet (initSys sPair 2) [0, 1]) rfl

/-- Claim C1: single-flight refresh. In every reachable state of every
interleaving: (a) a segment of any task that is not the leading one never
invokes the refresh callback; (b) a call that finds a stored refresh token
while no refresh is in flight sets the `isRefreshing` flag in the same
atomic segment in which it checks it (hence before the refresh path's first
suspension point) without invoking the callback yet; (c) a call that finds a
stored refresh token while a refresh is outstanding only appends itself to
the waiter queue — it never invokes the callback or starts a second refresh;
(d) the settle segment of the outstanding refresh invokes the callback at
most once — exactly once when the stored access token is falsy or expired —
and releases every queued waiter with the result of that same single refresh
attempt, clearing the flag only in that same segment, after the queue is
emptied. -/
theorem single_flight_refresh (env : Env) (s0 : Storage) (n : Nat)
    (sched : List Nat) (sys : Sys) (hsys : sys = run env (initSys s0 n) sched)
    (i : Nat) :
    (sys.tasks.get? i ≠ some .leading → (step env sys i).calls = sys.calls) ∧
    (sys.tasks.get? i = some .ready →
      jsTruthyOptStr (getRefreshToken sys.storage) = true →
      sys.isRefreshing = false →
      step env sys i =
        { sys with isRefreshing := true, tasks := sys.tasks.set i .leading }) ∧
    (sys.tasks.get? i = some .ready →
      jsTruthyOptStr (getRefreshToken sys.storage) = true →
      sys.isRefreshing = true →
      step env sys i =
        { sys with queue := sys.queue ++ [i], tasks := sys.tasks.set i .queuedW }) ∧
    (sys.tasks.get? i = some .leading →
      (step env sys i).calls ≤ sys.calls + 1 ∧
      (jsTruthyOptStr (getRefreshToken sys.storage) = true →
        (jsTruthyOptStr (getAccessToken sys.storage) = false ∨
          isTokenExpired env ((getAccessToken sys.storage).getD "") = .ok true) →
        (step env sys i).calls = sys.calls + 1) ∧
      (step env sys i).isRefreshing = false ∧
      (step env sys i).queue = [] ∧
      (∀ j ∈ sys.queue,
        (step env sys i).tasks.get? j = some (.done (cycleOutcome env sys.storage)))) := by
  have hinv : SysInv sys := hsys ▸ sysInv_run env (initSys s0 n) sched (sysInv_init s0 n)
  refine ⟨?_, ?_, ?_, ?_⟩
  · intro hni
    cases hti : sys.tasks.get? i with
    | none => unfold step; rw [hti]
    | some t =>
        cases t with
        | ready =>
            cases hrt : jsTruthyOptStr (getRefreshToken sys.storage) with
            | false => rw [step_of_ready_passthrough hti hrt]
            | true =>
                cases hfl : sys.isRefreshing with
                | false => rw [step_of_ready_leading hti hrt hfl]
                | true => rw [step_of_ready_enqueue hti hrt hfl]
        | queuedW => unfold step; rw [hti]
        | done r => unfold step; rw [hti]
        | leading => exact absurd hti hni
  · intro hti hrt hfl
    exact step_of_ready_leading hti hrt hfl
  · intro hti hrt hfl
    exact step_of_ready_enqueue hti hrt hfl
  · intro hti
    rw [step_of_leading hti]
    refine ⟨?_, ?_, settleStep_isRefreshing env sys i, settleStep_queue env sys i,
      fun j hj => settleStep_waiter hinv hti hj⟩
    · rw [settleStep_calls]
      exact Nat.add_le_add_left (refreshTokenIfNeeded_count_le env sys.storage) sys.calls
    · intro hrt hneed
      rw [settleStep_calls, refreshTokenIfNeeded_count_one env sys.storage hrt hneed]

theorem single_flight_refresh_witness :
    ((run envNet (initSys sPair 2) [0]).tasks.get? 1 ≠ some .leading →
      (step envNet (run envNet (initSys sPair 2) [0]) 1).calls =
        (run envNet (initSys sPair 2) [0]).calls) ∧
    ((run envNet (initSys sPair 2) [0]).tasks.get? 1 = some .ready →
      jsTruthyOptStr (getRefreshToken (run envNet (initSys sPair 2) [0]).storage) = true →
      (run envNet (initSys sPair 2) [0]).isRefreshing = false →
      step envNet (run envNet (initSys sPair 2) [0]) 1 =
        { run envNet (initSys sPair 2) [0] with
            isRefreshing := true,
            tasks := (run envNet (initSys sPair 2) [0]).tasks.set 1 .leading }) ∧
    ((run envNet (initSys sPair 2) [0]).tasks.get? 1 = some .ready →
      jsTruthyOptStr (getRefreshToken (run envNet (initSys sPair 2) [0]).storage) = true →
      (run envNet (initSys sPair 2) [0]).isRefreshing = true →
      step envNet (run envNet (initSys sPair 2) [0]) 1 =
        { run envNet (initSys sPair 2) [0] with
            queue := (run envNet (initSys sPair 2) [0]).queue ++ [1],
            tasks := (run envNet (initSys sPair 2) [0]).tasks.set 1 .queuedW }) ∧
    ((run envNet (initSys sPair 2) [0]).tasks.get? 1 = some .leading →
      (step envNet (run envNet (initSys sPair 2) [0]) 1).calls ≤
        (run envNet (initSys sPair 2) [0]).calls + 1 ∧
      (jsTruthyOptStr (getRefreshToken (run envNet (initSys sPair 2) [0]).storage) = true →
        (jsTruthyOptStr (getAccessToken (run envNet (initSys sPair 2) [0]).storage) = false ∨
          isTokenExpired envNet
            ((getAccessToken (run envNet (initSys sPair 2) [0]).storage).getD "") =
              .ok true) →
        (step envNet (run envNet (initSys sPair 2) [0]) 1).calls =
          (run envNet (initSys sPair 2) [0]).calls + 1) ∧
      (step envNet (run envNet (initSys sPair 2) [0]) 1).isRefreshing = false ∧
      (step envNet (run envNet (initSys sPair 2) [0]) 1).queue = [] ∧
      (∀ j ∈ (run envNet (initSys sPair 2) [0]).queue,
        (step envNet (run envNet (initSys sPair 2) [0]) 1).tasks.get? j =
          some (.done (cycleOutcome envNet (run envNet (initSys sPair 2) [0]).storage)))) :=
  single_flight_refresh envNet sPair 2 [0] (run envNet (initSys sPair 2) [0]) rfl 1

/-- Claim C6 counterexample: two interceptor calls, the first becomes the
leader, the second queues, and the refresh rejects with a network error. The
queued waiter is rejected with the refresh error itself
(`'Error: network down'`), while the original caller fails with the wrapping
error built by the interceptor's catch — the two are different errors, so the
waiters are NOT rejected with the same error as the one propagated to the
original caller. -/
theorem failure_propagation_counterexample :
    (run envNet (initSys sPair 2) [0, 1, 0]).tasks.get? 1 =
      some (.done (.failed (JsError.plain "Error: network down"))) ∧
    (run envNet (initSys sPair 2) [0, 1, 0]).tasks.get? 0 =
      some (.done (.failed (JsError.plain
        ("Unable to refresh access token for request due to token refresh error: "
          ++ "Error: network down")))) ∧
    JsError.plain "Error: network down" ≠
      JsError.plain
        ("Unable to refresh access token for request due to token refresh error: "
          ++ "Error: network down") := by
  refine ⟨by decide, by decide, by decide⟩

/-- Claim C6 amended: when the single in-flight refresh fails, every queued
waiter is rejected with the same error — the error the refresh rejected with
— no waiter is left pending, each settles exactly once with that single
outcome, and no request of the failed cycle is passed through without
authentication (every waiter and the original caller fail); the original
caller, however, is settled with a distinct wrapping error whose message
embeds the refresh error's message. -/
theorem failure_propagation (env : Env) (s0 : Storage) (n : Nat)
    (sched : List Nat) (sys : Sys) (hsys : sys = run env (initSys s0 n) sched)
    (i : Nat) (e : JsError)
    (hti : sys.tasks.get? i = some .leading)
    (herr : (refreshTokenIfNeeded env sys.storage).2.2 = .error e) :
    (∀ j ∈ sys.queue, (step env sys i).tasks.get? j = some (.done (.failed e))) ∧
    (step env sys i).tasks.get? i =
      some (.done (.failed (wrapInterceptorError e))) ∧
    wrapInterceptorError e =
      JsError.plain
        ("Unable to refresh access token for request due to token refresh error: "
          ++ e.msg) ∧
    (∀ j, (step env sys i).tasks.get? j ≠ some .queuedW) ∧
    (∀ j ∈ sys.queue, ∀ v,
      (step env sys i).tasks.get? j ≠ some (.done (.okHeader v))) := by
  have hinv : SysInv sys := hsys ▸ sysInv_run env (initSys s0 n) sched (sysInv_init s0 n)
  have hout : cycleOutcome env sys.storage = .failed e := by
    rw [cycleOutcome, herr]
  have hwaiter : ∀ j ∈ sys.queue,
      (step env sys i).tasks.get? j = some (.done (.failed e)) := by
    intro j hj
    rw [step_of_leading hti, settleStep_waiter hinv hti hj, hout]
  refine ⟨hwaiter, ?_, rfl, ?_, ?_⟩
  · rw [step_of_leading hti, settleStep_tasks]
    rw [List.get?_set_eq_of_lt _ (by rw [setAll_length]; exact get_some_lt hti), herr]
  · intro j hj
    have hpost : SysInv (step env sys i) := sysInv_step env sys i hinv
    have := hpost.queuedW_mem j hj
    rw [step_of_leading hti, settleStep_queue] at this
    cases this
  · intro j hj v hv
    have := hwaiter j hj
    rw [this] at hv
    cases hv

theorem failure_propagation_witness :
    (∀ j ∈ (run envNet (initSys sPair 2) [0, 1]).queue,
      (step envNet (run envNet (initSys sPair 2) [0, 1]) 0).tasks.get? j =
        some (.done (.failed (JsError.plain "Error: network down")))) ∧
    (step envNet (run envNet (initSys sPair 2) [0, 1]) 0).tasks.get? 0 =
      some (.done (.failed (wrapInterceptorError (JsError.plain "Error: network down")))) ∧
    wrapInterceptorError (JsError.plain "Error: network down") =
      JsError.plain
        ("Unable to refresh access token for request due to token refresh error: "
          ++ (JsError.plain "Error: network down").msg) ∧
    (∀ j, (step envNet (run envNet (initSys sPair 2) [0, 1]) 0).tasks.get? j ≠
      some .queuedW) ∧
    (∀ j ∈ (run envNet (initSys sPair 2) [0, 1]).queue, ∀ v,
      (step envNet (run envNet (initSys sPair 2) [0, 1]) 0).tasks.get? j ≠
        some (.done (.okHeader v))) :=
  failure_propagation envNet sPair 2 [0, 1] (run envNet (initSys sPair 2) [0, 1]) rfl
    0 (JsError.plain "Error: network down") (by decide) (by decide)
